import Mathlib

/-!
Shallow embedding of `polling-fetch` (src/index.ts) in Lean 4.

The library wraps a single transport call (`fetch`) with an optional polling
loop driven by caller-supplied hooks (`onRequest`, `onInitRespond`,
`onPolling`, `onAbort`), an inter-poll timer, and a cooperative cancellation
signal.  The embedding below translates `src/index.ts` directly:

* JS values returned by hooks are modelled by `HookValue` (a `Response`, a
  JSON-serialisable value, or a falsy value such as `undefined`); JS
  truthiness of those values is `HookValue.truthy`.
* `JSON.stringify` is an external collaborator of the library; serialisation
  is modelled by the injective embedding `Body.jsonOf` (a response body that
  is "the value serialised as structured data").
* The cancellation signal is modelled by `AbortTiming`, which fixes the
  suspension point of the invocation at which the signal transitions to the
  aborted state (the `abort` event listener registered at index.ts:100-105
  runs exactly at that point).  `Option AbortTiming` with `none` models an
  invocation without a signal.
* Promises are sequentialised; the result of an invocation is an `Outcome`:
  the returned promise fulfills (`success`), rejects (`failure`), or never
  settles (`hang`).  The interpreter is fuel-indexed because the polling
  loop (`while (true)`, index.ts:139) may run forever; running out of fuel
  yields the artificial outcome `fuelOut`.
* The `setTimeout`/`clearTimeout` pair is modelled by `TimerState`:
  `pending` is true while an armed, unfired timer exists; `armed`, `fired`
  and `cleared` count the corresponding transitions.  (After a timeout has
  fired, the JS variable `currentTimeout` still holds the stale id;
  `clearTimeout` on a fired id is a no-op, which is exactly the
  `pending = false` branch of `cleanup`.)
* The invocation context (`IContext`, index.ts:5-13) is embedded as `Ctx`.
  The `config` field and the open extension map (`[key: string]: any`) are
  omitted: the former would make the hook types circular (hooks already
  close over the merged configuration) and the latter is only an
  extensibility escape hatch; hooks are modelled as pure functions of the
  context.
-/

/-- JS errors, as far as the library distinguishes them: the `AbortError`
built at index.ts:56-58 and 142-144 (fixed name and message), and any other
error value (hook or transport failures, propagated verbatim). -/
inductive JsErr where
  | abortError
  | userErr (msg : String)
  deriving DecidableEq, Repr

/-- JSON-serialisable values a hook may return instead of a `Response`. -/
inductive JValue where
  | str (s : String)
  | num (n : Int)
  | bool (b : Bool)
  | null
  | obj (fields : List (String × String))
  deriving DecidableEq, Repr

/-- JS truthiness of a `JValue`. -/
def JValue.jsTruthy : JValue → Bool
  | .str s => s ≠ ""
  | .num n => n ≠ 0
  | .bool b => b
  | .null => false
  | .obj _ => true

/-- A response body: raw text, or a value serialised as structured data
(`JSON.stringify`, an external collaborator, modelled injectively). -/
inductive Body where
  | text (s : String)
  | jsonOf (v : JValue)
  deriving DecidableEq, Repr

/-- The reply object (`Response`). -/
structure Response where
  status : Nat
  headers : List (String × String)
  body : Body
  deriving DecidableEq, Repr

/-- A value returned by `onInitRespond` / `onPolling`: an actual `Response`
(`instanceof Response`, index.ts:118/150), any other JSON value, or a falsy
value such as `undefined`. -/
inductive HookValue where
  | falsy
  | respVal (r : Response)
  | jsonVal (v : JValue)
  deriving DecidableEq, Repr

/-- JS truthiness of a hook's returned value (`if (initResult)`,
index.ts:117; `if (pollingResult)`, index.ts:149). -/
def HookValue.truthy : HookValue → Bool
  | .falsy => false
  | .respVal _ => true
  | .jsonVal v => v.jsTruthy

/-- The point of the invocation at which the cancellation signal transitions
to the aborted state.  `preAborted`: already aborted at entry.  The other
constructors name the suspension point during which the `abort` event
fires. -/
inductive AbortTiming where
  | preAborted
  | duringFetch
  | duringInitRespond
  | duringPolling (k : Nat)
  | duringWait (k : Nat)
  deriving DecidableEq, Repr

/-- `init.signal?.aborted` as observed at the top-of-loop check
(index.ts:140) of iteration `k`, for a signal that transitions at the given
point.  A transition during the wait after iteration `j` is observable only
at tops `> j` (the event listener has already run by then). -/
def abortedAtTop : AbortTiming → Nat → Bool
  | .preAborted, _ => true
  | .duringFetch, _ => true
  | .duringInitRespond, _ => true
  | .duringPolling j, k => j < k
  | .duringWait j, k => j < k

def abortedAtTopOpt : Option AbortTiming → Nat → Bool
  | none, _ => false
  | some t, k => abortedAtTop t k

/-- `currentTimeout` (index.ts:61) together with bookkeeping of the
`setTimeout` / timer-elapse / `clearTimeout` transitions. -/
structure TimerState where
  pending : Bool
  armed : Nat
  fired : Nat
  cleared : Nat
  deriving DecidableEq, Repr

def zeroTimer : TimerState := ⟨false, 0, 0, 0⟩

/-- `cleanup` (index.ts:80-85): clear the timeout only when one is set. -/
def cleanup (t : TimerState) : TimerState :=
  if t.pending then { t with pending := false, cleared := t.cleared + 1 } else t

/-- Arming the inter-poll timer (`setTimeout`, index.ts:170). -/
def armTimer (t : TimerState) : TimerState :=
  { t with pending := true, armed := t.armed + 1 }

/-- The timer elapsing (the `setTimeout` callback resolving the wait). -/
def fireTimer (t : TimerState) : TimerState :=
  { t with pending := false, fired := t.fired + 1 }

/-- `RequestInput = RequestInit & { input }` (index.ts:2): the request
descriptor handed to `onRequest` and destructured for the transport call.
Its TS type has no `polling` field (it is deleted at index.ts:64 right after
the spread). -/
structure RequestInput where
  input : String
  method : Option String
  headers : Option (List (String × String))
  body : Option String
  signal : Option AbortTiming
  deriving Repr

/-- Shallow-merge of one optional field: an own property of the overriding
object wins, an absent one keeps the base value (JS object spread /
`Object.assign`). -/
def mergeOpt {α : Type} (old new : Option α) : Option α :=
  match new with
  | some v => some v
  | none => old

/-- `Object.assign(requestInput, await mergedConfig.onRequest(requestInput))`
(index.ts:67): every own property of the returned descriptor overwrites the
pending one; `input` is a required property, so it always overwrites. -/
def RequestInput.assign (a b : RequestInput) : RequestInput :=
  { input := b.input
    method := mergeOpt a.method b.method
    headers := mergeOpt a.headers b.headers
    body := mergeOpt a.body b.body
    signal := mergeOpt a.signal b.signal }

/-- The invocation context `IContext` (index.ts:5-13).  `initResponse` is
`none` until the initial fetch resolves (the context is created before that
at index.ts:73-78 and "fully initialized" only at index.ts:111-112). -/
structure Ctx where
  requestInput : RequestInput
  initResponse : Option Response
  pollingResponse : Option Response
  retryCount : Nat
  startTime : Nat

/-- `PollingConfig` (index.ts:16-22).  Hooks are caller-supplied
collaborators, modelled as pure (possibly failing) functions. -/
structure PollingConfig where
  interval : Option Nat := none
  onRequest : Option (RequestInput → Except JsErr RequestInput) := none
  onPolling : Option (Ctx → Except JsErr HookValue) := none
  onAbort : Option (Ctx → Except JsErr Unit) := none
  onInitRespond : Option (Ctx → Except JsErr HookValue) := none

/-- `{ ...config, ...init.polling }` (index.ts:50-53): per-call keys win,
field by field. -/
def mergeConfig (base onTop : PollingConfig) : PollingConfig :=
  { interval := mergeOpt base.interval onTop.interval
    onRequest := mergeOpt base.onRequest onTop.onRequest
    onPolling := mergeOpt base.onPolling onTop.onPolling
    onAbort := mergeOpt base.onAbort onTop.onAbort
    onInitRespond := mergeOpt base.onInitRespond onTop.onInitRespond }

/-- `PollingRequestInit extends RequestInit` (index.ts:24-26): ordinary
request options plus the optional `polling` block. -/
structure PollingRequestInit where
  method : Option String := none
  headers : Option (List (String × String)) := none
  body : Option String := none
  signal : Option AbortTiming := none
  polling : Option PollingConfig := none

/-- The options object actually handed to the transport (`fetch`): ordinary
request options plus a possible leftover `polling` own-property (the code
deletes it; carrying the field lets us state that it is always absent). -/
structure FetchInit where
  method : Option String
  headers : Option (List (String × String))
  body : Option String
  signal : Option AbortTiming
  polling : Option PollingConfig

/-- The factory product: the callable retains only the captured default
configuration (`config`, index.ts:34-37). -/
structure PollingFetchFunction where
  config : PollingConfig

/-- `createPollingFetch` (index.ts:33-37, 180-182):
`config = { interval: 2000, ...defaultConfig }`. -/
def createPollingFetch (defaultConfig : Option PollingConfig) : PollingFetchFunction :=
  let base := defaultConfig.getD {}
  { config := { base with interval := mergeOpt (some 2000) base.interval } }

/-- `pollingFetch.create = createPollingFetch` (index.ts:180): the `create`
method of every instance is the raw `createPollingFetch`; the captured
parent configuration does not participate. -/
def PollingFetchFunction.create (_self : PollingFetchFunction)
    (cfg : Option PollingConfig) : PollingFetchFunction :=
  createPollingFetch cfg

/-- The default instance `PollingFetch = createPollingFetch()`
(index.ts:185). -/
def PollingFetch : PollingFetchFunction := createPollingFetch none

/-- Observable events of one invocation, in order of occurrence.  `evFetch`
records the resource and options actually handed to the transport;
`evOnPolling` records `context.retryCount` at the moment `onPolling` is
invoked. -/
inductive Event where
  | evOnRequest
  | evFetch (resource : String) (init : FetchInit)
  | evOnInitRespond
  | evOnPolling (retryCount : Nat)
  | evWait
  | evOnAbort

/-- How the promise returned by `pollingFetch` settles: fulfilled, rejected,
never settles, or the interpreter's fuel ran out (the loop would continue). -/
inductive Outcome where
  | success (r : Response)
  | failure (e : JsErr)
  | hang
  | fuelOut
  deriving DecidableEq, Repr

/-- Result of interpreting one invocation: the outcome, the event trace, the
final timer state, and how many times `onAbort` was invoked. -/
structure RunResult where
  outcome : Outcome
  trace : List Event
  timer : TimerState
  onAbortCalls : Nat

/-- The value-wrapping rule at index.ts:118-125 and 150-161: a `Response` is
returned verbatim; any other truthy value is boxed into
`new Response(JSON.stringify(v), { status: 200,
headers: { 'Content-Type': 'application/json' } })`.  (The `falsy` branch is
never reached: the rule is applied only to truthy values.) -/
def wrapHookValue : HookValue → Response
  | .respVal r => r
  | .jsonVal v => ⟨200, [("Content-Type", "application/json")], Body.jsonOf v⟩
  | .falsy => ⟨200, [("Content-Type", "application/json")], Body.jsonOf JValue.null⟩

/-- Result of one run of `handleAbort` (index.ts:87-97): the timer state
after its `cleanup()`, whether `onAbort` was invoked, and the failure
`onAbort` threw, if any. -/
structure AbortRes where
  ts : TimerState
  called : Bool
  err : Option JsErr

/-- `handleAbort` (index.ts:87-97): clean up the timer, then invoke
`onAbort` only when it is configured AND `context.initResponse` is set. -/
def handleAbort (cfg : PollingConfig) (ctx : Ctx) (ts : TimerState) : AbortRes :=
  let ts := cleanup ts
  match cfg.onAbort, ctx.initResponse with
  | some f, some _ =>
      match f ctx with
      | .ok _ => ⟨ts, true, none⟩
      | .error e => ⟨ts, true, some e⟩
  | _, _ => ⟨ts, false, none⟩

/-- One run of the `abort` event listener (index.ts:101-105): `handleAbort`
executes at the suspension point where the signal transitions; the result
is the timer state afterwards, the emitted event, and the number of
`onAbort` invocations.  A failure of `onAbort` here is rethrown inside the
listener's `.catch` callback — an unhandled rejection, never delivered to
the caller — hence `.err` is dropped. -/
def listenerFire (cfg : PollingConfig) (ctx : Ctx) (ts : TimerState) :
    TimerState × List Event × Nat :=
  let a := handleAbort cfg ctx ts
  (a.ts, (if a.called then [Event.evOnAbort] else []), (if a.called then 1 else 0))

/-- The polling loop (index.ts:139-172), fuel-indexed.  `signal` is the
original `init.signal` (the loop checks `init.signal?.aborted` and the
`abort` listener was registered on it).  On an abort event during a hook or
wait, the listener (index.ts:101-105) runs `handleAbort` at that point; a
failure thrown there is rethrown inside the listener's `.catch` callback,
i.e. lost as an unhandled rejection, never delivered to the caller.  An
abort event during the inter-poll wait clears the armed timer via the
listener's `cleanup()`, after which nothing ever resolves the awaited wait
promise (index.ts:169-171): the invocation hangs and the `finally` cleanup
(index.ts:176) never runs. -/
def pollLoop (cfg : PollingConfig) (signal : Option AbortTiming)
    (f : Ctx → Except JsErr HookValue) (ctx : Ctx) (ts : TimerState) :
    Nat → RunResult
  | 0 => ⟨.fuelOut, [], ts, 0⟩
  | fuel + 1 =>
    let k := ctx.retryCount
    if abortedAtTopOpt signal k then
      -- index.ts:140-145: await handleAbort(); a failure of onAbort
      -- propagates in place of the AbortError built at index.ts:142-144.
      let a := handleAbort cfg ctx ts
      { outcome := match a.err with
          | some e => .failure e
          | none => .failure .abortError
        trace := if a.called then [.evOnAbort] else []
        timer := cleanup a.ts
        onAbortCalls := if a.called then 1 else 0 }
    else
      -- abort event firing while `onPolling` is in flight: the listener
      -- runs handleAbort now (timer not pending, so only onAbort runs);
      -- its failure, if any, is an unhandled rejection.
      let la := if signal == some (.duringPolling k) then listenerFire cfg ctx ts
        else (ts, ([] : List Event), 0)
      match la with
      | (ts, laEvs, laCalls) =>
        match f ctx with
        | .error e =>
            ⟨.failure e, .evOnPolling k :: laEvs, cleanup ts, laCalls⟩
        | .ok v =>
          if v.truthy then
            -- index.ts:149-162: record the reply and return it (wrapped).
            ⟨.success (wrapHookValue v), .evOnPolling k :: laEvs,
              cleanup ts, laCalls⟩
          else
            -- index.ts:168-171: increment retryCount, arm the timer, wait.
            let ctx' := { ctx with retryCount := k + 1 }
            let ts := armTimer ts
            if signal == some (.duringWait k) then
              let lw := listenerFire cfg ctx' ts
              { outcome := .hang
                trace := .evOnPolling k :: laEvs ++ [.evWait] ++ lw.2.1
                timer := lw.1
                onAbortCalls := laCalls + lw.2.2 }
            else
              let ts := fireTimer ts
              let r := pollLoop cfg signal f ctx' ts fuel
              { r with
                trace := .evOnPolling k :: laEvs ++ [.evWait] ++ r.trace
                onAbortCalls := laCalls + r.onAbortCalls }

/-- The context as fully initialized right after the initial fetch resolves
(index.ts:73-78 and 111-112). -/
def mkCtx (reqIn : RequestInput) (resp : Response) (startTime : Nat) : Ctx :=
  { requestInput := reqIn
    initResponse := some resp
    pollingResponse := some resp
    retryCount := 0
    startTime := startTime }

/-- index.ts:111-172 — everything after the initial fetch resolves:
initialize the context, run `onInitRespond`, take the no-polling shortcut,
or enter the polling loop.  An abort event firing while `onInitRespond` is
in flight runs the listener's `handleAbort` at that point (onAbort IS
invoked there, since `initResponse` is set; a failure is an unhandled
rejection). -/
def afterFetch (cfg : PollingConfig) (signal : Option AbortTiming)
    (reqIn : RequestInput) (resp : Response) (startTime : Nat) (fuel : Nat) :
    RunResult :=
  let ctx := mkCtx reqIn resp startTime
  let la := if signal == some .duringInitRespond then listenerFire cfg ctx zeroTimer
    else (zeroTimer, ([] : List Event), 0)
  match la with
  | (ts, laEvs, laCalls) =>
    let cont : List Event → RunResult := fun evs =>
      match cfg.onPolling with
      | none =>
          -- index.ts:135-137: no-polling shortcut, return the initial reply.
          ⟨.success resp, evs, cleanup ts, laCalls⟩
      | some f =>
          let r := pollLoop cfg signal f ctx ts fuel
          { r with
            trace := evs ++ r.trace
            onAbortCalls := laCalls + r.onAbortCalls }
    match cfg.onInitRespond with
    | some g =>
        (match g ctx with
        | .error e => ⟨.failure e, .evOnInitRespond :: laEvs, cleanup ts, laCalls⟩
        | .ok v =>
          if v.truthy then
            -- index.ts:117-125: short-circuit with the (wrapped) value.
            ⟨.success (wrapHookValue v), .evOnInitRespond :: laEvs,
              cleanup ts, laCalls⟩
          else cont (.evOnInitRespond :: laEvs))
    | none => cont laEvs

/-- The options object handed to the transport on the polling path:
`const { input: reqInput, ...reqInit } = requestInput` (index.ts:109).
`requestInput` has no `polling` own-property (deleted at index.ts:64 and
never reintroduced — `onRequest`'s return type has no such field), so
`reqInit.polling` is absent. -/
def toFetchInit (r : RequestInput) : FetchInit :=
  ⟨r.method, r.headers, r.body, r.signal, none⟩

/-- The full entry point `pollingFetch` (index.ts:39-178), interpreted
against an explicit transport `fetchFn`.  `startTime` stands for
`Date.now()`. -/
def pollingFetchRun (fetchFn : String → FetchInit → Except JsErr Response)
    (fac : PollingFetchFunction) (input : String)
    (init : Option PollingRequestInit) (startTime : Nat) (fuel : Nat) :
    RunResult :=
  let initV := init.getD {}
  match initV.polling with
  | none =>
      -- index.ts:44-48: pass-through; `{ ...init }` then delete `polling`.
      let std : FetchInit :=
        ⟨initV.method, initV.headers, initV.body, initV.signal, none⟩
      match fetchFn input std with
      | .ok r => ⟨.success r, [.evFetch input std], zeroTimer, 0⟩
      | .error e => ⟨.failure e, [.evFetch input std], zeroTimer, 0⟩
  | some pcfg =>
      let merged := mergeConfig fac.config pcfg
      -- index.ts:55-59: pre-check of `init.signal?.aborted`.
      if initV.signal == some .preAborted then
        ⟨.failure .abortError, [], zeroTimer, 0⟩
      else
        -- index.ts:63-64: `{ input, ...init }` then delete `polling`.
        let reqIn0 : RequestInput :=
          ⟨input, initV.method, initV.headers, initV.body, initV.signal⟩
        let next : RequestInput → List Event → RunResult := fun reqIn evs0 =>
          -- index.ts:100-110: register the abort listener, then fetch.
          -- An abort event during the fetch runs the listener's
          -- handleAbort with `context.initResponse` still unset: the timer
          -- is not pending and onAbort is skipped — no observable effect.
          let std := toFetchInit reqIn
          match fetchFn reqIn.input std with
          | .error e =>
              ⟨.failure e, evs0 ++ [.evFetch reqIn.input std],
                cleanup zeroTimer, 0⟩
          | .ok resp =>
              let r := afterFetch merged initV.signal reqIn resp startTime fuel
              { r with trace := evs0 ++ [.evFetch reqIn.input std] ++ r.trace }
        match merged.onRequest with
        | some f =>
            -- index.ts:65-71 (before the try/finally).
            (match f reqIn0 with
            | .error e => ⟨.failure e, [.evOnRequest], zeroTimer, 0⟩
            | .ok r => next (reqIn0.assign r) [.evOnRequest])
        | none => next reqIn0 []

/-- Whether the promise settled (fulfilled or rejected). -/
def Outcome.settled : Outcome → Bool
  | .success _ => true
  | .failure _ => true
  | .hang => false
  | .fuelOut => false

/-- The timer-accounting invariant: every armed timer is accounted for by a
fire, an (effective) clear, or by still being pending. -/
def timerBalanced (t : TimerState) : Prop :=
  t.armed = t.fired + t.cleared + (if t.pending then 1 else 0)

/-- Events of the forward-progress pipeline (everything except the
cancellation hook `onAbort`). -/
def isMainEv : Event → Bool
  | .evOnRequest => true
  | .evFetch _ _ => true
  | .evOnInitRespond => true
  | .evOnPolling _ => true
  | .evWait => true
  | .evOnAbort => false

/-- Checker for the polling-loop segment of a trace starting at retry
counter `k`: zero or more `(onPolling i, wait)` pairs with consecutive
counters `k, k+1, …`, the last pair possibly missing its wait (loop exited)
or the whole segment empty (loop never ran / exited at the top). -/
def pollShape (k : Nat) : List Event → Bool
  | [] => true
  | [Event.evOnPolling j] => j == k
  | Event.evOnPolling j :: Event.evWait :: rest => j == k && pollShape (k + 1) rest
  | _ => false

/-- Checker for the part of a trace after the transport call: an optional
`onInitRespond`, then a polling segment starting at counter 0. -/
def postFetchShape (evs : List Event) : Bool :=
  pollShape 0 (match evs with
    | Event.evOnInitRespond :: t => t
    | _ => evs)

/-- Checker for a whole invocation trace (cancellation events filtered
out): optional `onRequest`, optional transport call, optional
`onInitRespond`, then `(onPolling, wait)` pairs with counters 0, 1, 2, … -/
def traceShape (evs : List Event) : Bool :=
  let evs1 := match evs with
    | Event.evOnRequest :: t => t
    | _ => evs
  let evs2 := match evs1 with
    | Event.evFetch _ _ :: t => t
    | _ => evs1
  postFetchShape evs2

/-- Concrete fixtures for counterexamples and witnesses. -/
def initResp : Response := ⟨200, [], Body.text "pending"⟩

def constFetch : String → FetchInit → Except JsErr Response :=
  fun _ _ => .ok initResp

def falsyPolling : Ctx → Except JsErr HookValue := fun _ => .ok .falsy

def okAbort : Ctx → Except JsErr Unit := fun _ => .ok ()

def throwAbort : Ctx → Except JsErr Unit :=
  fun _ => .error (.userErr "onAbort error")

/-- Options of an invocation whose signal aborts during the first
inter-poll wait, with a falsy `onPolling` and a succeeding `onAbort`. -/
def abortWaitInit : PollingRequestInit :=
  { signal := some (.duringWait 0)
    polling := some { onPolling := some falsyPolling, onAbort := some okAbort } }

/-- Same, but `onAbort` throws. -/
def abortWaitThrowInit : PollingRequestInit :=
  { signal := some (.duringWait 0)
    polling := some { onPolling := some falsyPolling, onAbort := some throwAbort } }

def req0 : RequestInput := ⟨"/task", none, none, none, none⟩

def doneVal : JValue := .obj [("status", "done")]

def doneResp : Response := ⟨201, [], .text "done"⟩

/-- An `onInitRespond` returning a truthy non-`Response` value. -/
def initTruthyHook : Ctx → Except JsErr HookValue :=
  fun _ => .ok (.jsonVal doneVal)

/-- An `onInitRespond` returning a falsy value. -/
def falsyInitHook : Ctx → Except JsErr HookValue := fun _ => .ok .falsy

/-- An `onPolling` returning a final `Response` right away. -/
def respondingPolling : Ctx → Except JsErr HookValue :=
  fun _ => .ok (.respVal doneResp)

/-- An `onPolling` that is falsy twice and then returns a final reply. -/
def pollTwicePolling : Ctx → Except JsErr HookValue :=
  fun c => if c.retryCount < 2 then .ok .falsy else .ok (.respVal doneResp)

def ctx0 : Ctx := mkCtx req0 initResp 0

def cfgInitBoth : PollingConfig :=
  { onInitRespond := some initTruthyHook, onPolling := some falsyPolling }

def cfgFalsyInitNoPoll : PollingConfig :=
  { onInitRespond := some falsyInitHook }

def pollTwiceInit : PollingRequestInit :=
  { polling := some { onPolling := some pollTwicePolling } }

def c10Init : PollingRequestInit :=
  { method := some "POST", polling := some { onPolling := some respondingPolling } }

theorem handleAbort_ts (cfg : PollingConfig) (ctx : Ctx) (ts : TimerState) :
    (handleAbort cfg ctx ts).ts = cleanup ts := by
  unfold handleAbort
  rcases h1 : cfg.onAbort with _ | f <;>
    rcases h2 : ctx.initResponse with _ | r <;> simp
  cases h3 : f ctx <;> simp

theorem listenerFire_ts (cfg : PollingConfig) (ctx : Ctx) (ts : TimerState) :
    (listenerFire cfg ctx ts).1 = cleanup ts := by
  unfold listenerFire
  simp [handleAbort_ts]

theorem listenerFire_no_poll (cfg : PollingConfig) (ctx : Ctx) (ts : TimerState)
    (k : Nat) : Event.evOnPolling k ∉ (listenerFire cfg ctx ts).2.1 := by
  unfold listenerFire
  cases h : (handleAbort cfg ctx ts).called <;> simp [h]

theorem listenerFire_no_fetch (cfg : PollingConfig) (ctx : Ctx) (ts : TimerState)
    (res : String) (std : FetchInit) :
    Event.evFetch res std ∉ (listenerFire cfg ctx ts).2.1 := by
  unfold listenerFire
  cases h : (handleAbort cfg ctx ts).called <;> simp [h]

theorem listenerFire_filter (cfg : PollingConfig) (ctx : Ctx) (ts : TimerState) :
    ((listenerFire cfg ctx ts).2.1).filter isMainEv = [] := by
  unfold listenerFire
  cases h : (handleAbort cfg ctx ts).called <;> simp [h, isMainEv]

/-- C7: for every invocation without a polling configuration, the operation
makes exactly one transport call, with the caller's resource and options
(polling key deleted, cancellation signal included), and returns exactly
what the transport returns; no hook fires and no polling loop runs. -/
theorem passthrough_exact
    (fetchFn : String → FetchInit → Except JsErr Response)
    (fac : PollingFetchFunction) (input : String)
    (init : Option PollingRequestInit) (startTime fuel : Nat)
    (h : (init.getD {}).polling = none) :
    pollingFetchRun fetchFn fac input init startTime fuel =
      { outcome :=
          match fetchFn input ⟨(init.getD {}).method, (init.getD {}).headers,
              (init.getD {}).body, (init.getD {}).signal, none⟩ with
          | .ok r => .success r
          | .error e => .failure e
        trace := [.evFetch input ⟨(init.getD {}).method, (init.getD {}).headers,
            (init.getD {}).body, (init.getD {}).signal, none⟩]
        timer := zeroTimer
        onAbortCalls := 0 } := by
  unfold pollingFetchRun
  simp only [h]
  cases hf : fetchFn input ⟨(init.getD {}).method, (init.getD {}).headers,
      (init.getD {}).body, (init.getD {}).signal, none⟩ <;> simp [hf]

/-- C7 witness: a concrete pass-through invocation. -/
theorem passthrough_exact_witness :
    ((none : Option PollingRequestInit).getD {}).polling = none ∧
    pollingFetchRun constFetch PollingFetch "/item" none 0 5 =
      { outcome := .success initResp
        trace := [.evFetch "/item" ⟨none, none, none, none, none⟩]
        timer := zeroTimer
        onAbortCalls := 0 } :=
  ⟨rfl, passthrough_exact constFetch PollingFetch "/item" none 0 5 rfl⟩

/-- C3: an invocation with a polling configuration whose cancellation signal
is already aborted at entry rejects with an AbortError before any transport
call, with no hook firing (empty event trace) and zero `onAbort` calls. -/
theorem preaborted_rejects_immediately
    (fetchFn : String → FetchInit → Except JsErr Response)
    (fac : PollingFetchFunction) (input : String)
    (init : PollingRequestInit) (startTime fuel : Nat)
    (hp : init.polling.isSome) (hs : init.signal = some .preAborted) :
    pollingFetchRun fetchFn fac input (some init) startTime fuel =
      ⟨.failure .abortError, [], zeroTimer, 0⟩ := by
  unfold pollingFetchRun
  obtain ⟨p, hp⟩ := Option.isSome_iff_exists.mp hp
  simp [hp, hs]

/-- C3 witness: a concrete pre-aborted invocation. -/
theorem preaborted_rejects_immediately_witness :
    ({ signal := some .preAborted,
       polling := some { onPolling := some falsyPolling, onAbort := some okAbort } }
        : PollingRequestInit).polling.isSome = true ∧
    pollingFetchRun constFetch PollingFetch "/task"
        (some { signal := some .preAborted,
                polling := some { onPolling := some falsyPolling,
                                  onAbort := some okAbort } }) 0 5 =
      ⟨.failure .abortError, [], zeroTimer, 0⟩ :=
  ⟨rfl, preaborted_rejects_immediately constFetch PollingFetch "/task" _ 0 5 rfl rfl⟩

/-- C2 counterexample: chaining `create` does not compose configurations.
With parent base `B = { interval: 500 }` and per-create configuration
`C = {}`, the chained factory's effective interval is the freshly defaulted
2000, not the 500 that the claimed shallow merge of `B` and `C` gives. -/
theorem create_chain_cex :
    ((createPollingFetch (some { interval := some 500 })).create
        (some {})).config.interval ≠
      (mergeConfig { interval := some 500 } {}).interval := by
  decide

/-- C2 amended: calling `create` on a factory ignores the parent's captured
base configuration entirely — `create` is the raw `createPollingFetch`, so
the new entry point's defaults are `{ interval: 2000 }` overridden by the
new configuration alone (chained factories replace, not compose). -/
theorem create_ignores_parent (parent : PollingFetchFunction)
    (cfg : Option PollingConfig) :
    parent.create cfg = createPollingFetch cfg := rfl

/-- C1: the code violates the claim.  With a falsy `onPolling`, a
succeeding `onAbort` and a signal that aborts during the first inter-poll
wait, the abort listener's `cleanup()` clears the armed timer (the sole
resolver of the awaited wait promise), `onAbort` runs, and then nothing
ever settles the returned promise: the outcome is a hang, not the claimed
AbortError rejection. -/
theorem abort_during_wait_hangs :
    pollingFetchRun constFetch PollingFetch "/task" (some abortWaitInit) 0 9 =
      { outcome := .hang
        trace := [.evFetch "/task" ⟨none, none, none, some (.duringWait 0), none⟩,
          .evOnPolling 0, .evWait, .evOnAbort]
        timer := ⟨false, 1, 0, 1⟩
        onAbortCalls := 1 } := by
  rfl

/-- C4: the code violates the claim.  When the abort-cleanup path runs from
the abort event listener during the inter-poll wait and `onAbort` throws,
the failure neither reaches the caller nor does any AbortError: the thrown
error is rethrown inside the listener's `.catch` callback (an unhandled
rejection) and the returned promise never settles. -/
theorem abort_cleanup_failure_lost :
    pollingFetchRun constFetch PollingFetch "/task" (some abortWaitThrowInit) 0 9 =
      { outcome := .hang
        trace := [.evFetch "/task" ⟨none, none, none, some (.duringWait 0), none⟩,
          .evOnPolling 0, .evWait, .evOnAbort]
        timer := ⟨false, 1, 0, 1⟩
        onAbortCalls := 1 } := by
  rfl

/-- C5: the value-wrapping rule is applied identically at both hooks — a
truthy value returned by `onInitRespond` (first conjunct) or by `onPolling`
at the head of any loop iteration (second conjunct) becomes the final
result via `wrapHookValue`: a `Response` is returned verbatim, any other
truthy value is boxed into a synthetic status-200 reply whose body is the
value serialised as structured data under a JSON content-type header. -/
theorem value_wrapping_rule :
    (∀ (cfg : PollingConfig) (signal : Option AbortTiming) (reqIn : RequestInput)
        (resp : Response) (startTime fuel : Nat)
        (g : Ctx → Except JsErr HookValue) (v : HookValue),
      cfg.onInitRespond = some g →
      g (mkCtx reqIn resp startTime) = .ok v → v.truthy = true →
      (afterFetch cfg signal reqIn resp startTime fuel).outcome =
        .success (wrapHookValue v))
    ∧ (∀ (cfg : PollingConfig) (signal : Option AbortTiming)
        (f : Ctx → Except JsErr HookValue) (ctx : Ctx) (ts : TimerState)
        (fuel : Nat) (v : HookValue),
      abortedAtTopOpt signal ctx.retryCount = false →
      f ctx = .ok v → v.truthy = true →
      (pollLoop cfg signal f ctx ts (fuel + 1)).outcome =
        .success (wrapHookValue v)) := by
  constructor
  · intro cfg signal reqIn resp startTime fuel g v hg hv ht
    unfold afterFetch
    split <;> simp [hg, hv, ht]
  · intro cfg signal f ctx ts fuel v ha hf ht
    unfold pollLoop
    simp [ha, hf, ht]

/-- C5 witness: a truthy JSON value from `onInitRespond` is boxed, and a
`Response` from `onPolling` is passed through verbatim. -/
theorem value_wrapping_rule_witness :
    ((afterFetch cfgInitBoth none req0 initResp 0 5).outcome =
        .success ⟨200, [("Content-Type", "application/json")], .jsonOf doneVal⟩)
    ∧ ((pollLoop {} none respondingPolling ctx0 zeroTimer (4 + 1)).outcome =
        .success doneResp) :=
  ⟨value_wrapping_rule.1 cfgInitBoth none req0 initResp 0 5 initTruthyHook
      (.jsonVal doneVal) rfl rfl rfl,
    value_wrapping_rule.2 {} none respondingPolling ctx0 zeroTimer 4
      (.respVal doneResp) rfl rfl rfl⟩

/-- C6: a truthy `onInitRespond` result becomes the final result (after
wrapping) and `onPolling` is never invoked, whether or not it is
configured; and when `onInitRespond` is absent or falsy and `onPolling` is
absent, the initial reply is returned with no polling events at all. -/
theorem init_respond_short_circuit :
    (∀ (cfg : PollingConfig) (signal : Option AbortTiming) (reqIn : RequestInput)
        (resp : Response) (startTime fuel : Nat)
        (g : Ctx → Except JsErr HookValue) (v : HookValue),
      cfg.onInitRespond = some g →
      g (mkCtx reqIn resp startTime) = .ok v → v.truthy = true →
      (afterFetch cfg signal reqIn resp startTime fuel).outcome =
          .success (wrapHookValue v) ∧
        ∀ k, Event.evOnPolling k ∉
          (afterFetch cfg signal reqIn resp startTime fuel).trace)
    ∧ (∀ (cfg : PollingConfig) (signal : Option AbortTiming) (reqIn : RequestInput)
        (resp : Response) (startTime fuel : Nat),
      cfg.onPolling = none →
      (cfg.onInitRespond = none ∨
        ∃ g v, cfg.onInitRespond = some g ∧
          g (mkCtx reqIn resp startTime) = .ok v ∧ v.truthy = false) →
      (afterFetch cfg signal reqIn resp startTime fuel).outcome = .success resp ∧
        ∀ k, Event.evOnPolling k ∉
          (afterFetch cfg signal reqIn resp startTime fuel).trace) := by
  constructor
  · intro cfg signal reqIn resp startTime fuel g v hg hv ht
    unfold afterFetch
    split <;> simp [hg, hv, ht] <;>
      exact fun k => listenerFire_no_poll _ _ _ k
  · intro cfg signal reqIn resp startTime fuel hp hi
    unfold afterFetch
    rcases hi with hi | ⟨g, v, hg, hv, hvf⟩
    · split <;> simp [hp, hi] <;>
        exact fun k => listenerFire_no_poll _ _ _ k
    · split <;> simp [hp, hg, hv, hvf] <;>
        exact fun k => listenerFire_no_poll _ _ _ k

/-- C6 witness: with both hooks configured and a truthy `onInitRespond`,
polling never runs; with a falsy `onInitRespond` and no `onPolling`, the
initial reply is the final result. -/
theorem init_respond_short_circuit_witness :
    ((afterFetch cfgInitBoth none req0 initResp 0 5).outcome =
        .success ⟨200, [("Content-Type", "application/json")], .jsonOf doneVal⟩ ∧
      ∀ k, Event.evOnPolling k ∉ (afterFetch cfgInitBoth none req0 initResp 0 5).trace)
    ∧ ((afterFetch cfgFalsyInitNoPoll none req0 initResp 0 5).outcome =
        .success initResp ∧
      ∀ k, Event.evOnPolling k ∉
        (afterFetch cfgFalsyInitNoPoll none req0 initResp 0 5).trace) :=
  ⟨init_respond_short_circuit.1 cfgInitBoth none req0 initResp 0 5 initTruthyHook
      (.jsonVal doneVal) rfl rfl rfl,
    init_respond_short_circuit.2 cfgFalsyInitNoPoll none req0 initResp 0 5 rfl
      (Or.inr ⟨falsyInitHook, .falsy, rfl, rfl, rfl⟩)⟩

theorem cleanup_not_pending (t : TimerState) : (cleanup t).pending = false := by
  unfold cleanup
  split <;> simp_all

theorem cleanup_idem (t : TimerState) : cleanup (cleanup t) = cleanup t := by
  unfold cleanup
  split <;> simp_all

theorem cleanup_noop (t : TimerState) (h : t.pending = false) : cleanup t = t := by
  unfold cleanup
  simp [h]

theorem timerBalanced_cleanup {t : TimerState} (h : timerBalanced t) :
    timerBalanced (cleanup t) := by
  unfold timerBalanced cleanup at *
  split <;> simp_all <;> omega

theorem timerBalanced_armFire {t : TimerState} (hp : t.pending = false)
    (h : timerBalanced t) : timerBalanced (fireTimer (armTimer t)) := by
  unfold timerBalanced armTimer fireTimer at *
  simp_all
  omega

theorem timerBalanced_armCleanup {t : TimerState} (hp : t.pending = false)
    (h : timerBalanced t) : timerBalanced (cleanup (armTimer t)) := by
  unfold timerBalanced armTimer cleanup at *
  simp_all
  omega

theorem pollLoop_timer_inv (cfg : PollingConfig) (signal : Option AbortTiming)
    (f : Ctx → Except JsErr HookValue) :
    ∀ (fuel : Nat) (ctx : Ctx) (ts : TimerState),
      ts.pending = false → timerBalanced ts →
      timerBalanced (pollLoop cfg signal f ctx ts fuel).timer ∧
        ((pollLoop cfg signal f ctx ts fuel).outcome.settled = true →
          (pollLoop cfg signal f ctx ts fuel).timer.pending = false) := by
  intro fuel
  induction fuel with
  | zero =>
      intro ctx ts hp hb
      simp [pollLoop, hb, Outcome.settled]
  | succ fuel ih =>
      intro ctx ts hp hb
      rw [pollLoop]
      split
      · refine ⟨?_, fun _ => ?_⟩ <;>
          simp [handleAbort_ts, cleanup_idem, cleanup_not_pending]
        exact timerBalanced_cleanup hb
      · cases hf : f ctx with
        | error e =>
            cases hsig : (signal == some (AbortTiming.duringPolling ctx.retryCount)) <;>
              (refine ⟨?_, fun _ => ?_⟩ <;>
                simp [hsig, hf, listenerFire_ts, cleanup_not_pending, cleanup_idem]) <;>
              exact timerBalanced_cleanup hb
        | ok v =>
            cases ht : v.truthy with
            | true =>
                cases hsig : (signal == some (AbortTiming.duringPolling ctx.retryCount)) <;>
                  (refine ⟨?_, fun _ => ?_⟩ <;>
                    simp [hsig, hf, ht, listenerFire_ts, cleanup_not_pending, cleanup_idem]) <;>
                  exact timerBalanced_cleanup hb
            | false =>
                cases hsig : (signal == some (AbortTiming.duringPolling ctx.retryCount)) <;>
                  cases hw : (signal == some (AbortTiming.duringWait ctx.retryCount))
                case false.false =>
                    have := ih { ctx with retryCount := ctx.retryCount + 1 }
                      (fireTimer (armTimer ts)) (by simp [fireTimer])
                      (timerBalanced_armFire hp hb)
                    refine ⟨?_, fun hs => ?_⟩ <;>
                      simp [hsig, hw, hf, ht] at *
                    · exact this.1
                    · exact this.2 hs
                case false.true =>
                    refine ⟨?_, fun hs => ?_⟩ <;>
                      simp [hsig, hw, hf, ht, listenerFire_ts, Outcome.settled] at *
                    exact timerBalanced_armCleanup hp hb
                case true.false =>
                    have := ih { ctx with retryCount := ctx.retryCount + 1 }
                      (fireTimer (armTimer (cleanup ts))) (by simp [fireTimer])
                      (timerBalanced_armFire (cleanup_not_pending ts)
                        (timerBalanced_cleanup hb))
                    refine ⟨?_, fun hs => ?_⟩ <;>
                      simp [hsig, hw, hf, ht, listenerFire_ts] at *
                    · exact this.1
                    · exact this.2 hs
                case true.true =>
                    refine ⟨?_, fun hs => ?_⟩ <;>
                      simp [hsig, hw, hf, ht, listenerFire_ts, Outcome.settled] at *
                    exact timerBalanced_armCleanup (cleanup_not_pending ts)
                      (timerBalanced_cleanup hb)

theorem zeroTimer_balanced : timerBalanced zeroTimer := by
  simp [timerBalanced, zeroTimer]

theorem balanced_flat {t : TimerState} (hb : timerBalanced t)
    (hp : t.pending = false) : t.armed = t.fired + t.cleared := by
  unfold timerBalanced at hb
  simp [hp] at hb
  exact hb

theorem afterFetch_timer_inv (cfg : PollingConfig) (signal : Option AbortTiming)
    (reqIn : RequestInput) (resp : Response) (startTime fuel : Nat) :
    timerBalanced (afterFetch cfg signal reqIn resp startTime fuel).timer ∧
      ((afterFetch cfg signal reqIn resp startTime fuel).outcome.settled = true →
        (afterFetch cfg signal reqIn resp startTime fuel).timer.pending = false) := by
  have hcz : cleanup zeroTimer = zeroTimer := rfl
  unfold afterFetch
  have hla : (if (signal == some AbortTiming.duringInitRespond) = true
      then listenerFire cfg (mkCtx reqIn resp startTime) zeroTimer
      else (zeroTimer, ([] : List Event), 0)).1 = zeroTimer := by
    split <;> simp [listenerFire_ts, hcz]
  simp only [hla]
  rcases hg : cfg.onInitRespond with _ | g
  · rcases hpol : cfg.onPolling with _ | f
    · simp [hg, hpol, hcz, cleanup, timerBalanced, zeroTimer, Outcome.settled]
    · simp only [hg, hpol]
      have := pollLoop_timer_inv cfg signal f fuel
        (mkCtx reqIn resp startTime) zeroTimer rfl zeroTimer_balanced
      refine ⟨?_, fun hs => ?_⟩ <;> simp at *
      · exact this.1
      · exact this.2 hs
  · rcases hv : g (mkCtx reqIn resp startTime) with e | v
    · simp [hg, hv, hcz, cleanup, timerBalanced, zeroTimer, Outcome.settled]
    · cases ht : v.truthy
      · rcases hpol : cfg.onPolling with _ | f
        · simp [hg, hv, ht, hpol, hcz, cleanup, timerBalanced, zeroTimer, Outcome.settled]
        · simp only [hg, hv, ht, hpol]
          have := pollLoop_timer_inv cfg signal f fuel
            (mkCtx reqIn resp startTime) zeroTimer rfl zeroTimer_balanced
          refine ⟨?_, fun hs => ?_⟩ <;> simp at *
          · exact this.1
          · exact this.2 hs
      · simp [hg, hv, ht, hcz, cleanup, timerBalanced, zeroTimer, Outcome.settled]

theorem run_timer_inv (fetchFn : String → FetchInit → Except JsErr Response)
    (fac : PollingFetchFunction) (input : String)
    (init : Option PollingRequestInit) (startTime fuel : Nat) :
    timerBalanced (pollingFetchRun fetchFn fac input init startTime fuel).timer ∧
      ((pollingFetchRun fetchFn fac input init startTime fuel).outcome.settled = true →
        (pollingFetchRun fetchFn fac input init startTime fuel).timer.pending = false) := by
  have hcz : cleanup zeroTimer = zeroTimer := rfl
  unfold pollingFetchRun
  rcases hpol : (init.getD {}).polling with _ | pcfg <;> simp only [hpol]
  · cases hf : fetchFn input ⟨(init.getD {}).method, (init.getD {}).headers,
        (init.getD {}).body, (init.getD {}).signal, none⟩ <;>
      simp [hf, cleanup, timerBalanced, zeroTimer, Outcome.settled]
  · cases hsig : ((init.getD {}).signal == some AbortTiming.preAborted)
    case true => simp [cleanup, timerBalanced, zeroTimer, Outcome.settled]
    case false =>
      simp only [Bool.false_eq_true, if_false]
      rcases hreq : (mergeConfig fac.config pcfg).onRequest with _ | g <;>
        simp only [hreq]
      · cases hf : fetchFn input (toFetchInit
            ⟨input, (init.getD {}).method, (init.getD {}).headers,
              (init.getD {}).body, (init.getD {}).signal⟩) with
        | error e =>
            simp [hf, hcz, cleanup, timerBalanced, zeroTimer, Outcome.settled]
        | ok resp2 =>
            simp only [hf]
            have := afterFetch_timer_inv (mergeConfig fac.config pcfg)
              ((init.getD {}).signal)
              ⟨input, (init.getD {}).method, (init.getD {}).headers,
                (init.getD {}).body, (init.getD {}).signal⟩ resp2 startTime fuel
            refine ⟨?_, fun hs => ?_⟩ <;> simp at *
            · exact this.1
            · exact this.2 hs
      · rcases hr : g ⟨input, (init.getD {}).method, (init.getD {}).headers,
            (init.getD {}).body, (init.getD {}).signal⟩ with e | r <;> simp only [hr]
        · simp [cleanup, timerBalanced, zeroTimer, Outcome.settled]
        · cases hf : fetchFn (RequestInput.assign
              ⟨input, (init.getD {}).method, (init.getD {}).headers,
                (init.getD {}).body, (init.getD {}).signal⟩ r).input
              (toFetchInit (RequestInput.assign
                ⟨input, (init.getD {}).method, (init.getD {}).headers,
                  (init.getD {}).body, (init.getD {}).signal⟩ r)) with
          | error e =>
              simp [hf, hcz, cleanup, timerBalanced, zeroTimer, Outcome.settled]
          | ok resp2 =>
              simp only [hf]
              have := afterFetch_timer_inv (mergeConfig fac.config pcfg)
                ((init.getD {}).signal)
                (RequestInput.assign
                  ⟨input, (init.getD {}).method, (init.getD {}).headers,
                    (init.getD {}).body, (init.getD {}).signal⟩ r) resp2 startTime fuel
              refine ⟨?_, fun hs => ?_⟩ <;> simp at *
              · exact this.1
              · exact this.2 hs

/-- C8: on every exit path on which the returned promise settles (success,
hook failure, transport failure, cancellation), the invocation's wait timer
has been released before settling — no timer is pending, and every armed
timer was either fired or cleared exactly once — and the release operation
`cleanup` is idempotent: releasing an already-released or never-set timer
is a no-op. -/
theorem timer_release_discipline :
    (∀ (fetchFn : String → FetchInit → Except JsErr Response)
        (fac : PollingFetchFunction) (input : String)
        (init : Option PollingRequestInit) (startTime fuel : Nat),
      (pollingFetchRun fetchFn fac input init startTime fuel).outcome.settled = true →
      (pollingFetchRun fetchFn fac input init startTime fuel).timer.pending = false ∧
        (pollingFetchRun fetchFn fac input init startTime fuel).timer.armed =
          (pollingFetchRun fetchFn fac input init startTime fuel).timer.fired +
            (pollingFetchRun fetchFn fac input init startTime fuel).timer.cleared)
    ∧ (∀ t : TimerState, cleanup (cleanup t) = cleanup t)
    ∧ (∀ t : TimerState, t.pending = false → cleanup t = t) := by
  refine ⟨?_, cleanup_idem, cleanup_noop⟩
  intro fetchFn fac input init startTime fuel hs
  obtain ⟨hb, hpend⟩ := run_timer_inv fetchFn fac input init startTime fuel
  exact ⟨hpend hs, balanced_flat hb (hpend hs)⟩

/-- C8 witness: a settled polling run (two falsy attempts, then a final
reply) has no pending timer and both armed timers fired; releasing a
pending, a released and a never-set timer behaves as claimed. -/
theorem timer_release_discipline_witness :
    ((pollingFetchRun constFetch PollingFetch "/task" (some pollTwiceInit) 0 9).outcome.settled
        = true) ∧
    ((pollingFetchRun constFetch PollingFetch "/task" (some pollTwiceInit) 0 9).timer.pending
          = false ∧
      (pollingFetchRun constFetch PollingFetch "/task" (some pollTwiceInit) 0 9).timer.armed =
        (pollingFetchRun constFetch PollingFetch "/task" (some pollTwiceInit) 0 9).timer.fired +
          (pollingFetchRun constFetch PollingFetch "/task" (some pollTwiceInit) 0 9).timer.cleared) ∧
    cleanup (cleanup ⟨true, 1, 0, 0⟩) = cleanup ⟨true, 1, 0, 0⟩ ∧
    cleanup zeroTimer = zeroTimer :=
  ⟨rfl,
    timer_release_discipline.1 constFetch PollingFetch "/task" (some pollTwiceInit) 0 9 rfl,
    timer_release_discipline.2.1 ⟨true, 1, 0, 0⟩,
    timer_release_discipline.2.2 zeroTimer rfl⟩

theorem pollLoop_shape (cfg : PollingConfig) (signal : Option AbortTiming)
    (f : Ctx → Except JsErr HookValue) :
    ∀ (fuel : Nat) (ctx : Ctx) (ts : TimerState),
      pollShape ctx.retryCount
        (((pollLoop cfg signal f ctx ts fuel).trace).filter isMainEv) = true := by
  intro fuel
  induction fuel with
  | zero => intro ctx ts; simp [pollLoop, pollShape]
  | succ fuel ih =>
      intro ctx ts
      rw [pollLoop]
      split
      · cases hc : (handleAbort cfg ctx ts).called <;>
          simp [hc, isMainEv, pollShape]
      · cases hf : f ctx with
        | error e =>
            cases hsig : (signal == some (AbortTiming.duringPolling ctx.retryCount)) <;>
              simp [hsig, hf, isMainEv, pollShape, listenerFire_filter]
        | ok v =>
            cases ht : v.truthy with
            | true =>
                cases hsig : (signal == some (AbortTiming.duringPolling ctx.retryCount)) <;>
                  simp [hsig, hf, ht, isMainEv, pollShape, listenerFire_filter]
            | false =>
                have hih := fun ts' => ih { ctx with retryCount := ctx.retryCount + 1 } ts'
                simp only [Ctx.retryCount] at hih
                cases hsig : (signal == some (AbortTiming.duringPolling ctx.retryCount)) <;>
                  cases hw : (signal == some (AbortTiming.duringWait ctx.retryCount)) <;>
                  simp [hsig, hw, hf, ht, isMainEv, pollShape, listenerFire_filter, hih]

theorem postFetchShape_of_pollShape {l : List Event} (h : pollShape 0 l = true) :
    postFetchShape l = true := by
  cases l with
  | nil => rfl
  | cons e t =>
      cases e <;> simp only [postFetchShape] <;> try exact h
      cases t <;> simp [pollShape] at h

theorem afterFetch_shape (cfg : PollingConfig) (signal : Option AbortTiming)
    (reqIn : RequestInput) (resp : Response) (startTime fuel : Nat) :
    postFetchShape
      (((afterFetch cfg signal reqIn resp startTime fuel).trace).filter isMainEv) =
      true := by
  unfold afterFetch
  cases hsig : (signal == some AbortTiming.duringInitRespond) <;>
    rcases hg : cfg.onInitRespond with _ | g
  case false.none =>
      rcases hpol : cfg.onPolling with _ | f
      · simp [hg, hpol, postFetchShape, pollShape]
      · simp only [hg, hpol, Bool.false_eq_true, if_false]
        simp only [List.nil_append]
        exact postFetchShape_of_pollShape
          (pollLoop_shape cfg signal f fuel (mkCtx reqIn resp startTime) zeroTimer)
  case true.none =>
      rcases hpol : cfg.onPolling with _ | f
      · simp [hg, hpol, listenerFire_filter, postFetchShape, pollShape]
      · simp only [hg, hpol, if_true]
        simp [listenerFire_filter]
        exact postFetchShape_of_pollShape
          (pollLoop_shape cfg signal f fuel (mkCtx reqIn resp startTime) _)
  case false.some =>
      rcases hv : g (mkCtx reqIn resp startTime) with e | v
      · simp [hg, hv, isMainEv, postFetchShape, pollShape]
      · cases ht : v.truthy
        · rcases hpol : cfg.onPolling with _ | f
          · simp [hg, hv, ht, hpol, isMainEv, postFetchShape, pollShape]
          · simp only [hg, hv, ht, hpol, Bool.false_eq_true, if_false]
            simp [isMainEv, postFetchShape]
            exact pollLoop_shape cfg signal f fuel (mkCtx reqIn resp startTime) zeroTimer
        · simp [hg, hv, ht, isMainEv, postFetchShape, pollShape]
  case true.some =>
      rcases hv : g (mkCtx reqIn resp startTime) with e | v
      · simp [hg, hv, isMainEv, listenerFire_filter, postFetchShape, pollShape]
      · cases ht : v.truthy
        · rcases hpol : cfg.onPolling with _ | f
          · simp [hg, hv, ht, hpol, isMainEv, listenerFire_filter, postFetchShape, pollShape]
          · simp only [hg, hv, ht, hpol, if_true]
            simp [isMainEv, listenerFire_filter, postFetchShape]
            exact pollLoop_shape cfg signal f fuel (mkCtx reqIn resp startTime) _
        · simp [hg, hv, ht, isMainEv, listenerFire_filter, postFetchShape, pollShape]

/-- C9: for every invocation, the forward-progress events of the trace (the
cancellation hook filtered out) occur in the fixed order `onRequest`, then
the transport call, then `onInitRespond`, then zero or more strictly
sequential `(onPolling, wait)` pairs whose recorded retry counters are
exactly 0, 1, 2, …: the counter starts at 0 and increases by exactly one
after each falsy `onPolling` result. -/
theorem hook_call_order (fetchFn : String → FetchInit → Except JsErr Response)
    (fac : PollingFetchFunction) (input : String)
    (init : Option PollingRequestInit) (startTime fuel : Nat) :
    traceShape
      (((pollingFetchRun fetchFn fac input init startTime fuel).trace).filter isMainEv) =
      true := by
  unfold pollingFetchRun
  rcases hpol : (init.getD {}).polling with _ | pcfg <;> simp only [hpol]
  · cases hf : fetchFn input ⟨(init.getD {}).method, (init.getD {}).headers,
        (init.getD {}).body, (init.getD {}).signal, none⟩ <;>
      simp [hf, isMainEv, traceShape, postFetchShape, pollShape]
  · cases hsig : ((init.getD {}).signal == some AbortTiming.preAborted)
    case true => simp [traceShape, postFetchShape, pollShape]
    case false =>
      simp only [Bool.false_eq_true, if_false]
      rcases hreq : (mergeConfig fac.config pcfg).onRequest with _ | g <;>
        simp only [hreq]
      · cases hf : fetchFn input (toFetchInit
            ⟨input, (init.getD {}).method, (init.getD {}).headers,
              (init.getD {}).body, (init.getD {}).signal⟩) with
        | error e => simp [hf, isMainEv, traceShape, postFetchShape, pollShape]
        | ok resp2 =>
            simp only [hf]
            have h := afterFetch_shape (mergeConfig fac.config pcfg)
              ((init.getD {}).signal)
              ⟨input, (init.getD {}).method, (init.getD {}).headers,
                (init.getD {}).body, (init.getD {}).signal⟩ resp2 startTime fuel
            simpa [isMainEv, traceShape] using h
      · rcases hr : g ⟨input, (init.getD {}).method, (init.getD {}).headers,
            (init.getD {}).body, (init.getD {}).signal⟩ with e | r <;> simp only [hr]
        · simp [isMainEv, traceShape, postFetchShape, pollShape]
        · cases hf : fetchFn (RequestInput.assign
              ⟨input, (init.getD {}).method, (init.getD {}).headers,
                (init.getD {}).body, (init.getD {}).signal⟩ r).input
              (toFetchInit (RequestInput.assign
                ⟨input, (init.getD {}).method, (init.getD {}).headers,
                  (init.getD {}).body, (init.getD {}).signal⟩ r)) with
          | error e => simp [hf, isMainEv, traceShape, postFetchShape, pollShape]
          | ok resp2 =>
              simp only [hf]
              have h := afterFetch_shape (mergeConfig fac.config pcfg)
                ((init.getD {}).signal)
                (RequestInput.assign
                  ⟨input, (init.getD {}).method, (init.getD {}).headers,
                    (init.getD {}).body, (init.getD {}).signal⟩ r) resp2 startTime fuel
              simpa [isMainEv, traceShape] using h

theorem pollLoop_no_fetch (cfg : PollingConfig) (signal : Option AbortTiming)
    (f : Ctx → Except JsErr HookValue) :
    ∀ (fuel : Nat) (ctx : Ctx) (ts : TimerState) (res : String) (std : FetchInit),
      Event.evFetch res std ∉ (pollLoop cfg signal f ctx ts fuel).trace := by
  intro fuel
  induction fuel with
  | zero => intro ctx ts res std; simp [pollLoop]
  | succ fuel ih =>
      intro ctx ts res std
      rw [pollLoop]
      split
      · cases hc : (handleAbort cfg ctx ts).called <;> simp [hc]
      · cases hf : f ctx with
        | error e =>
            cases hsig : (signal == some (AbortTiming.duringPolling ctx.retryCount)) <;>
              simp [hsig, hf, listenerFire_no_fetch]
        | ok v =>
            cases ht : v.truthy with
            | true =>
                cases hsig : (signal == some (AbortTiming.duringPolling ctx.retryCount)) <;>
                  simp [hsig, hf, ht, listenerFire_no_fetch]
            | false =>
                cases hsig : (signal == some (AbortTiming.duringPolling ctx.retryCount)) <;>
                  cases hw : (signal == some (AbortTiming.duringWait ctx.retryCount)) <;>
                  simp [hsig, hw, hf, ht, listenerFire_no_fetch, ih]

theorem afterFetch_no_fetch (cfg : PollingConfig) (signal : Option AbortTiming)
    (reqIn : RequestInput) (resp : Response) (startTime fuel : Nat)
    (res : String) (std : FetchInit) :
    Event.evFetch res std ∉ (afterFetch cfg signal reqIn resp startTime fuel).trace := by
  unfold afterFetch
  cases hsig : (signal == some AbortTiming.duringInitRespond) <;>
    rcases hg : cfg.onInitRespond with _ | g
  case false.none | true.none =>
      rcases hpol : cfg.onPolling with _ | f <;>
        simp [hg, hpol, listenerFire_no_fetch, pollLoop_no_fetch]
  case false.some | true.some =>
      rcases hv : g (mkCtx reqIn resp startTime) with e | v
      · simp [hg, hv, listenerFire_no_fetch]
      · cases ht : v.truthy
        · rcases hpol : cfg.onPolling with _ | f <;>
            simp [hg, hv, ht, hpol, listenerFire_no_fetch, pollLoop_no_fetch]
        · simp [hg, hv, ht, listenerFire_no_fetch]

theorem run_fetch_event (fetchFn : String → FetchInit → Except JsErr Response)
    (fac : PollingFetchFunction) (input : String)
    (init : Option PollingRequestInit) (startTime fuel : Nat)
    (res : String) (std : FetchInit)
    (hmem : Event.evFetch res std ∈
      (pollingFetchRun fetchFn fac input init startTime fuel).trace) :
    ((init.getD {}).polling = none ∧ res = input ∧
      std = ⟨(init.getD {}).method, (init.getD {}).headers, (init.getD {}).body,
        (init.getD {}).signal, none⟩)
    ∨ (∃ pcfg, (init.getD {}).polling = some pcfg ∧
        ∃ reqIn : RequestInput,
          (((mergeConfig fac.config pcfg).onRequest = none ∧
              reqIn = ⟨input, (init.getD {}).method, (init.getD {}).headers,
                (init.getD {}).body, (init.getD {}).signal⟩) ∨
            ∃ g r, (mergeConfig fac.config pcfg).onRequest = some g ∧
              g ⟨input, (init.getD {}).method, (init.getD {}).headers,
                (init.getD {}).body, (init.getD {}).signal⟩ = .ok r ∧
              reqIn = RequestInput.assign
                ⟨input, (init.getD {}).method, (init.getD {}).headers,
                  (init.getD {}).body, (init.getD {}).signal⟩ r) ∧
          res = reqIn.input ∧ std = toFetchInit reqIn) := by
  unfold pollingFetchRun at hmem
  rcases hpol : (init.getD {}).polling with _ | pcfg <;> simp only [hpol] at hmem
  · cases hf : fetchFn input ⟨(init.getD {}).method, (init.getD {}).headers,
        (init.getD {}).body, (init.getD {}).signal, none⟩ <;>
      simp [hf] at hmem
    · exact Or.inl ⟨rfl, hmem.1, hmem.2⟩
    · exact Or.inl ⟨rfl, hmem.1, hmem.2⟩
  · right
    refine ⟨pcfg, rfl, ?_⟩
    cases hsig : ((init.getD {}).signal == some AbortTiming.preAborted)
    case true => simp [hsig] at hmem
    case false =>
      simp only [hsig, Bool.false_eq_true, if_false] at hmem
      rcases hreq : (mergeConfig fac.config pcfg).onRequest with _ | g <;>
        simp only [hreq] at hmem
      · cases hf : fetchFn input (toFetchInit
            ⟨input, (init.getD {}).method, (init.getD {}).headers,
              (init.getD {}).body, (init.getD {}).signal⟩) <;>
          simp [hf, afterFetch_no_fetch] at hmem
        · exact ⟨_, Or.inl ⟨rfl, rfl⟩, hmem.1, hmem.2⟩
        · exact ⟨_, Or.inl ⟨rfl, rfl⟩, hmem.1, hmem.2⟩
      · rcases hr : g ⟨input, (init.getD {}).method, (init.getD {}).headers,
            (init.getD {}).body, (init.getD {}).signal⟩ with e | r <;>
          simp only [hr] at hmem
        · simp at hmem
        · cases hf : fetchFn (RequestInput.assign
              ⟨input, (init.getD {}).method, (init.getD {}).headers,
                (init.getD {}).body, (init.getD {}).signal⟩ r).input
              (toFetchInit (RequestInput.assign
                ⟨input, (init.getD {}).method, (init.getD {}).headers,
                  (init.getD {}).body, (init.getD {}).signal⟩ r)) <;>
            simp [hf, afterFetch_no_fetch] at hmem
          · exact ⟨_, Or.inr ⟨g, r, rfl, hr, rfl⟩, hmem.1, hmem.2⟩
          · exact ⟨_, Or.inr ⟨g, r, rfl, hr, rfl⟩, hmem.1, hmem.2⟩

/-- C10: the options object handed to the transport never carries the
`polling` key (first conjunct, every path), and the other option fields are
forwarded unchanged: in the pass-through path they are exactly the
caller's options (second conjunct), in the polling path exactly the
caller's options when no `onRequest` is configured (third conjunct), and
exactly the `onRequest`-transformed descriptor when it is (fourth
conjunct). -/
theorem polling_key_never_forwarded :
    (∀ (fetchFn : String → FetchInit → Except JsErr Response)
        (fac : PollingFetchFunction) (input : String)
        (init : Option PollingRequestInit) (startTime fuel : Nat)
        (res : String) (std : FetchInit),
      Event.evFetch res std ∈
          (pollingFetchRun fetchFn fac input init startTime fuel).trace →
      std.polling = none)
    ∧ (∀ (fetchFn : String → FetchInit → Except JsErr Response)
        (fac : PollingFetchFunction) (input : String)
        (init : Option PollingRequestInit) (startTime fuel : Nat)
        (res : String) (std : FetchInit),
      (init.getD {}).polling = none →
      Event.evFetch res std ∈
          (pollingFetchRun fetchFn fac input init startTime fuel).trace →
      res = input ∧ std = ⟨(init.getD {}).method, (init.getD {}).headers,
        (init.getD {}).body, (init.getD {}).signal, none⟩)
    ∧ (∀ (fetchFn : String → FetchInit → Except JsErr Response)
        (fac : PollingFetchFunction) (input : String)
        (init : PollingRequestInit) (startTime fuel : Nat)
        (res : String) (std : FetchInit) (pcfg : PollingConfig),
      init.polling = some pcfg →
      (mergeConfig fac.config pcfg).onRequest = none →
      Event.evFetch res std ∈
          (pollingFetchRun fetchFn fac input (some init) startTime fuel).trace →
      res = input ∧
        std = toFetchInit ⟨input, init.method, init.headers, init.body, init.signal⟩)
    ∧ (∀ (fetchFn : String → FetchInit → Except JsErr Response)
        (fac : PollingFetchFunction) (input : String)
        (init : PollingRequestInit) (startTime fuel : Nat)
        (res : String) (std : FetchInit) (pcfg : PollingConfig)
        (g : RequestInput → Except JsErr RequestInput) (r : RequestInput),
      init.polling = some pcfg →
      (mergeConfig fac.config pcfg).onRequest = some g →
      g ⟨input, init.method, init.headers, init.body, init.signal⟩ = .ok r →
      Event.evFetch res std ∈
          (pollingFetchRun fetchFn fac input (some init) startTime fuel).trace →
      res = (RequestInput.assign
          ⟨input, init.method, init.headers, init.body, init.signal⟩ r).input ∧
        std = toFetchInit (RequestInput.assign
          ⟨input, init.method, init.headers, init.body, init.signal⟩ r)) := by
  refine ⟨?_, ?_, ?_, ?_⟩
  · intro fetchFn fac input init startTime fuel res std hmem
    rcases run_fetch_event fetchFn fac input init startTime fuel res std hmem with
      ⟨_, _, hstd⟩ | ⟨pcfg, _, reqIn, _, _, hstd⟩ <;> subst hstd <;> rfl
  · intro fetchFn fac input init startTime fuel res std hpol hmem
    rcases run_fetch_event fetchFn fac input init startTime fuel res std hmem with
      ⟨_, h1, h2⟩ | ⟨pcfg, hp, _⟩
    · exact ⟨h1, h2⟩
    · rw [hpol] at hp
      cases hp
  · intro fetchFn fac input init startTime fuel res std pcfg hp hreq hmem
    rcases run_fetch_event fetchFn fac input (some init) startTime fuel res std hmem with
      ⟨h0, _, _⟩ | ⟨pcfg', hp', reqIn, hcase, hres, hstd⟩
    · simp only [Option.getD_some] at h0
      rw [hp] at h0
      cases h0
    · simp only [Option.getD_some] at hp' hcase
      rw [hp] at hp'
      injection hp' with hpp
      subst hpp
      rcases hcase with ⟨_, hreqIn⟩ | ⟨g, r, hg, _, _⟩
      · subst hreqIn
        exact ⟨hres, hstd⟩
      · rw [hreq] at hg
        cases hg
  · intro fetchFn fac input init startTime fuel res std pcfg g r hp hreq hr hmem
    rcases run_fetch_event fetchFn fac input (some init) startTime fuel res std hmem with
      ⟨h0, _, _⟩ | ⟨pcfg', hp', reqIn, hcase, hres, hstd⟩
    · simp only [Option.getD_some] at h0
      rw [hp] at h0
      cases h0
    · simp only [Option.getD_some] at hp' hcase
      rw [hp] at hp'
      injection hp' with hpp
      subst hpp
      rcases hcase with ⟨hnone, _⟩ | ⟨g', r', hg', hr', hreqIn⟩
      · rw [hreq] at hnone
        cases hnone
      · rw [hreq] at hg'
        injection hg' with hgg
        subst hgg
        rw [hr] at hr'
        injection hr' with hrr
        subst hrr
        subst hreqIn
        exact ⟨hres, hstd⟩

/-- C10 witness: a concrete polling invocation with a POST method and no
`onRequest`; the single transport call carries the method, no polling key,
and exactly the caller's other options. -/
theorem polling_key_never_forwarded_witness :
    (Event.evFetch "/task" (toFetchInit ⟨"/task", some "POST", none, none, none⟩) ∈
        (pollingFetchRun constFetch PollingFetch "/task" (some c10Init) 0 5).trace)
    ∧ (toFetchInit ⟨"/task", some "POST", none, none, none⟩).polling = none
    ∧ ("/task" = "/task" ∧
        toFetchInit ⟨"/task", some "POST", none, none, none⟩ =
          toFetchInit ⟨"/task", c10Init.method, c10Init.headers, c10Init.body,
            c10Init.signal⟩) := by
  have hmem : Event.evFetch "/task"
      (toFetchInit ⟨"/task", some "POST", none, none, none⟩) ∈
      (pollingFetchRun constFetch PollingFetch "/task" (some c10Init) 0 5).trace :=
    List.Mem.head _
  exact ⟨hmem,
    polling_key_never_forwarded.1 constFetch PollingFetch "/task" (some c10Init) 0 5
      "/task" (toFetchInit ⟨"/task", some "POST", none, none, none⟩) hmem,
    polling_key_never_forwarded.2.2.1 constFetch PollingFetch "/task" c10Init 0 5
      "/task" (toFetchInit ⟨"/task", some "POST", none, none, none⟩)
      { onPolling := some respondingPolling } rfl rfl hmem⟩
